import Mathlib

/-!
Verification of the Group-1 authentication service.

The development shallowly embeds the data model and route
handlers (`server.js`, `middleware/auth.js`, `utils/tokens.js`,
`models/User.js`) as pure Lean functions over an explicit store, and
proves the behavioural properties claimed of the token lifecycle,
session rotation, and role-gated endpoints.

Modelling conventions:
* JSON web tokens are modelled as signed structures carrying the
  payload `{userId, role}`, the expiry timestamp, and the key they were
  signed with; serialisation of distinct tokens is injective, so the
  stored token strings are identified with these structures.
* Time is a `Nat` of seconds; `jwt.sign` with expiresIn of 1h and
  7d becomes `now + 3600` and `now + 604800`, and a token is
  unexpired for verification exactly when `now < exp`.
* The Mongo collection is a list of user records; `findOne`/`findById`
  become `List.find?`, `save` of an existing document rewrites the
  record with the matching id, `findByIdAndDelete` filters it out.
* bcrypt hashing is modelled as an injective tagging function with
  `bcrypt.compare` as the matching check.
* Absent or non-truthy JS request fields are modelled with `Option`
  (`none` for absent/null, and the empty string is falsy for string
  fields, while an array — even the empty array — is always truthy).
-/

namespace AuthService

/-- Postal address subdocument (`models/User.js` addressSchema). -/
structure Address where
  street : String
  city : String
  state : String
  zip : String
  country : String
deriving DecidableEq, Repr

/-- Role enum of the user schema: user or admin. -/
inductive Role where
  | user
  | admin
deriving DecidableEq, Repr

/-- A signed JWT: payload `{userId, role}`, expiry, and signing key. -/
structure Token where
  userId : String
  role : Role
  exp : Nat
  secret : String
deriving DecidableEq, Repr

/-- Environment configuration: `JWT_SECRET` and `JWT_REFRESH_SECRET`. -/
structure Config where
  accessSecret : String
  refreshSecret : String
deriving DecidableEq, Repr

/-- Token pair returned by `generateTokens` in `utils/tokens.js`. -/
structure TokenPair where
  accessToken : Token
  refreshToken : Token
deriving DecidableEq, Repr

/-- The `jwt.sign(payload, secret, expiresIn)` primitive. -/
def sign (userId : String) (role : Role) (secret : String) (exp : Nat) : Token :=
  { userId := userId, role := role, exp := exp, secret := secret }

/-- `generateTokens(userId, role)` from `utils/tokens.js`: an access
token signed with `JWT_SECRET` expiring in 1 hour and a refresh token
signed with `JWT_REFRESH_SECRET` expiring in 7 days. -/
def generateTokens (cfg : Config) (userId : String) (role : Role) (now : Nat) : TokenPair :=
  { accessToken := sign userId role cfg.accessSecret (now + 3600)
    refreshToken := sign userId role cfg.refreshSecret (now + 604800) }

/-- `jwt.verify(token, secret)` on an already-parsed token: the
signature must match `secret` and the token must be unexpired. -/
def verifyTok (secret : String) (now : Nat) (t : Token) : Bool :=
  t.secret == secret && decide (now < t.exp)

/-- User record (`models/User.js` userSchema). -/
structure User where
  id : String
  name : String
  email : String
  passwordHash : String
  role : Role
  phone : String
  addresses : List Address
  refreshTokens : List Token
  createdAt : Nat
deriving DecidableEq, Repr

/-- The Mongo `users` collection. -/
abbrev Store := List User

/-- Well-formed store: document ids are pairwise distinct (the
primary-key index of Mongo on `_id`). -/
def WF (s : Store) : Prop := (s.map User.id).Nodup

/-- Email-uniqueness invariant of the store (the unique index of the
schema on `email`). -/
def emailUnique (s : Store) : Prop := (s.map User.email).Nodup

/-- bcrypt.hash modelled as an injective tagging function. -/
def bhash (password : String) : String := "bcrypt$10$" ++ password

/-- bcrypt.compare(password, hash). -/
def bcompare (password hash : String) : Bool := bhash password == hash

/-- Saving an existing document: rewrite the record with this id. -/
def updateUser (s : Store) (u : User) : Store :=
  s.map (fun v => if v.id == u.id then u else v)

/-- JS truthiness of an optional string field: present and nonempty. -/
def truthyStr : Option String → Bool
  | none => false
  | some str => str != ""

/-- Outcome of a handler: `res.status(code).json(...)` with either a
success payload or an `{error: msg}` body. -/
inductive Outcome (α : Type) where
  | success (code : Nat) (val : α)
  | failure (code : Nat) (msg : String)
deriving DecidableEq, Repr

/-- A handler result: the HTTP outcome plus the store after the
request (handlers that never write return the store unchanged). -/
structure HR (α : Type) where
  out : Outcome α
  store : Store
deriving DecidableEq, Repr

/-- User object embedded in register/login responses. -/
structure UserSummary where
  id : String
  name : String
  email : String
  role : Role
deriving DecidableEq, Repr

def summarize (u : User) : UserSummary :=
  { id := u.id, name := u.name, email := u.email, role := u.role }

/-- Response body of register and login: token pair plus summary. -/
structure AuthOut where
  accessToken : Token
  refreshToken : Token
  user : UserSummary
deriving DecidableEq, Repr

/-- Profile body returned by `PUT /me` (no createdAt). -/
structure Profile where
  id : String
  name : String
  email : String
  role : Role
  phone : String
  addresses : List Address
deriving DecidableEq, Repr

def profileOf (u : User) : Profile :=
  { id := u.id, name := u.name, email := u.email, role := u.role
    phone := u.phone, addresses := u.addresses }

/-- Profile body returned by `GET /me` (includes createdAt). -/
structure ProfileFull where
  id : String
  name : String
  email : String
  role : Role
  phone : String
  addresses : List Address
  createdAt : Nat
deriving DecidableEq, Repr

def profileFullOf (u : User) : ProfileFull :=
  { id := u.id, name := u.name, email := u.email, role := u.role
    phone := u.phone, addresses := u.addresses, createdAt := u.createdAt }

/-- Projection produced by the select of minus-passwordHash and
minus-refreshTokens in the admin listing: every schema field except
the password hash and the refresh-token set. -/
structure AdminUserView where
  id : String
  name : String
  email : String
  role : Role
  phone : String
  addresses : List Address
  createdAt : Nat
deriving DecidableEq, Repr

def adminView (u : User) : AdminUserView :=
  { id := u.id, name := u.name, email := u.email, role := u.role
    phone := u.phone, addresses := u.addresses, createdAt := u.createdAt }

/-- The lowercase normalization the schema applies to emails on both
store and query casts: lowercase every character. -/
def normEmail (e : String) : String := String.mk (e.data.map Char.toLower)

/-- Body of POST /auth/register. -/
structure RegisterBody where
  name : Option String
  email : Option String
  password : Option String
deriving DecidableEq, Repr

/-- POST /auth/register (`server.js` lines 41-82). Validation, the
duplicate-email check via `findOne({email})`, document creation with
role `user`, then `generateTokens`, push of the refresh token, and a
second save. The schema lowercases emails on both store and query. -/
def register (cfg : Config) (newId : String) (now : Nat) (s : Store)
    (b : RegisterBody) : HR AuthOut :=
  if truthyStr b.name && truthyStr b.email && truthyStr b.password then
    let email := normEmail (b.email.getD "")
    match s.find? (fun u => u.email == email) with
    | some _ => { out := .failure 400 "Email already used", store := s }
    | none =>
      let user : User :=
        { id := newId, name := b.name.getD "", email := email
          passwordHash := bhash (b.password.getD ""), role := .user
          addresses := [], phone := "", refreshTokens := [], createdAt := now }
      let s1 := s ++ [user]
      let tokens := generateTokens cfg user.id user.role now
      let user2 := { user with refreshTokens := user.refreshTokens ++ [tokens.refreshToken] }
      { out := .success 201
          { accessToken := tokens.accessToken, refreshToken := tokens.refreshToken
            user := summarize user2 }
        store := updateUser s1 user2 }
  else { out := .failure 400 "Name, email, and password required", store := s }

/-- Body of POST /auth/login. -/
structure LoginBody where
  email : Option String
  password : Option String
deriving DecidableEq, Repr

/-- POST /auth/login (`server.js` lines 87-117). -/
def login (cfg : Config) (now : Nat) (s : Store) (b : LoginBody) : HR AuthOut :=
  if truthyStr b.email && truthyStr b.password then
    match s.find? (fun u => u.email == normEmail (b.email.getD "")) with
    | none => { out := .failure 401 "Invalid credentials", store := s }
    | some user =>
      if bcompare (b.password.getD "") user.passwordHash then
        let tokens := generateTokens cfg user.id user.role now
        let user2 := { user with refreshTokens := user.refreshTokens ++ [tokens.refreshToken] }
        { out := .success 200
            { accessToken := tokens.accessToken, refreshToken := tokens.refreshToken
              user := summarize user2 }
          store := updateUser s user2 }
      else { out := .failure 401 "Invalid credentials", store := s }
  else { out := .failure 400 "Email and password required", store := s }

/-- Body of POST /auth/refresh and POST /auth/logout. -/
structure RefreshBody where
  refreshToken : Option Token
deriving DecidableEq, Repr

/-- POST /auth/refresh (`server.js` lines 122-141). The handler only
requires the token to be present and then looks the owner up by
membership (`findOne({refreshTokens: refreshToken})`); on a hit it
filters out the presented token, pushes a freshly generated one, and
saves. No `jwt.verify` runs on the presented refresh token. -/
def refresh (cfg : Config) (now : Nat) (s : Store) (b : RefreshBody) : HR TokenPair :=
  match b.refreshToken with
  | none => { out := .failure 401 "Refresh token required", store := s }
  | some rt =>
    match s.find? (fun u => u.refreshTokens.contains rt) with
    | none => { out := .failure 401 "Invalid refresh token", store := s }
    | some user =>
      let tokens := generateTokens cfg user.id user.role now
      let user2 :=
        { user with refreshTokens :=
            (user.refreshTokens.filter (fun t => t != rt)) ++ [tokens.refreshToken] }
      { out := .success 200 tokens, store := updateUser s user2 }

/-- POST /auth/logout inner handler (`server.js` lines 146-161), after
the auth middleware granted `userId`. Removal happens only when the
user exists and a refresh token was presented; the response is 200 in
every case. -/
def logout (s : Store) (userId : String) (b : RefreshBody) : HR String :=
  match s.find? (fun u => u.id == userId), b.refreshToken with
  | some user, some rt =>
    { out := .success 200 "Logged out"
      store := updateUser s
        { user with refreshTokens := user.refreshTokens.filter (fun t => t != rt) } }
  | _, _ => { out := .success 200 "Logged out", store := s }

/-- GET /me inner handler (`server.js` lines 166-184). -/
def getMe (s : Store) (userId : String) : HR ProfileFull :=
  match s.find? (fun u => u.id == userId) with
  | none => { out := .failure 404 "User not found", store := s }
  | some u => { out := .success 200 (profileFullOf u), store := s }

/-- Body of PUT /me. -/
structure MeBody where
  name : Option String
  phone : Option String
  addresses : Option (List Address)
deriving DecidableEq, Repr

/-- PUT /me inner handler (`server.js` lines 189-214). Each `if
(field)` guard is JS truthiness: empty strings are falsy and skipped,
while any present array — including `[]` — is truthy and assigned. -/
def updateMe (s : Store) (userId : String) (b : MeBody) : HR Profile :=
  match s.find? (fun u => u.id == userId) with
  | none => { out := .failure 404 "User not found", store := s }
  | some u =>
    let u1 := if truthyStr b.name then { u with name := b.name.getD "" } else u
    let u2 := if truthyStr b.phone then { u1 with phone := b.phone.getD "" } else u1
    let u3 := match b.addresses with
      | some l => { u2 with addresses := l }
      | none => u2
    { out := .success 200 (profileOf u3), store := updateUser s u3 }

/-- GET /admin/users inner handler (`server.js` lines 219-226): load
the record of the caller fresh, require role `admin`, then list every user
through the projection that drops passwordHash and refreshTokens. -/
def adminListUsers (s : Store) (userId : String) : HR (List AdminUserView) :=
  match s.find? (fun u => u.id == userId) with
  | some admin =>
    if admin.role == Role.admin then
      { out := .success 200 (s.map adminView), store := s }
    else { out := .failure 403 "Admin permission required", store := s }
  | none => { out := .failure 403 "Admin permission required", store := s }

/-- DELETE /admin/users/:id inner handler (`server.js` lines 231-238). -/
def adminDeleteUser (s : Store) (userId : String) (targetId : String) : HR String :=
  match s.find? (fun u => u.id == userId) with
  | some admin =>
    if admin.role == Role.admin then
      { out := .success 200 "User deleted"
        store := s.filter (fun u => u.id != targetId) }
    else { out := .failure 403 "Admin permission required", store := s }
  | none => { out := .failure 403 "Admin permission required", store := s }

/-- The credential extracted from the Authorization header:
no token string at all, a string `jwt.verify` cannot parse, or a
parsed signed token (whose key and expiry `verify` then checks). -/
inductive Cred where
  | missing
  | malformed
  | presented (t : Token)
deriving DecidableEq, Repr

/-- Result of the auth middleware: a 401 response, or the request
context enriched with `req.userId` and `req.userRole`. -/
inductive AuthResult where
  | denied (code : Nat) (msg : String)
  | granted (userId : String) (role : Role)
deriving DecidableEq, Repr

/-- `authMiddleware` (`middleware/auth.js` lines 4-20): 401 when the
token is absent; otherwise `jwt.verify(token, JWT_SECRET)` — 401 when
the token is malformed, signed with another key, or expired; on
success the `userId` and `role` of the payload are attached. -/
def authMiddleware (cfg : Config) (now : Nat) (c : Cred) : AuthResult :=
  match c with
  | .missing => .denied 401 "No token provided"
  | .malformed => .denied 401 "Invalid or expired token"
  | .presented t =>
    if verifyTok cfg.accessSecret now t then .granted t.userId t.role
    else .denied 401 "Invalid or expired token"

/-- `app.use(path, authMiddleware, handler)` wiring: the middleware
either responds itself (leaving the store untouched) or calls the
downstream handler with the attached identity. -/
def withAuth {α : Type} (cfg : Config) (now : Nat) (c : Cred) (s : Store)
    (handler : String → Role → HR α) : HR α :=
  match authMiddleware cfg now c with
  | .denied code msg => { out := .failure code msg, store := s }
  | .granted userId role => handler userId role

/-- The protected POST /auth/logout route. -/
def routeLogout (cfg : Config) (now : Nat) (c : Cred) (s : Store) (b : RefreshBody) : HR String :=
  withAuth cfg now c s (fun userId _ => logout s userId b)

/-- The protected GET /me route. -/
def routeGetMe (cfg : Config) (now : Nat) (c : Cred) (s : Store) : HR ProfileFull :=
  withAuth cfg now c s (fun userId _ => getMe s userId)

/-- The protected PUT /me route. -/
def routePutMe (cfg : Config) (now : Nat) (c : Cred) (s : Store) (b : MeBody) : HR Profile :=
  withAuth cfg now c s (fun userId _ => updateMe s userId b)

/-- The protected GET /admin/users route. -/
def routeAdminList (cfg : Config) (now : Nat) (c : Cred) (s : Store) : HR (List AdminUserView) :=
  withAuth cfg now c s (fun userId _ => adminListUsers s userId)

/-- The protected DELETE /admin/users/:id route. -/
def routeAdminDelete (cfg : Config) (now : Nat) (c : Cred) (s : Store)
    (targetId : String) : HR String :=
  withAuth cfg now c s (fun userId _ => adminDeleteUser s userId targetId)

/-- Whether a handler outcome is a success response. -/
def isSuccess {α : Type} : Outcome α → Bool
  | .success _ _ => true
  | .failure _ _ => false

/-- The guard of both admin handlers: the freshly loaded record of the
caller exists and carries role admin. -/
def storedAdmin (s : Store) (uid : String) : Bool :=
  match s.find? (fun v => v.id == uid) with
  | some u => u.role == Role.admin
  | none => false

/-- Sample configuration used in concrete witnesses. -/
def cfgS : Config := { accessSecret := "access-secret", refreshSecret := "refresh-secret" }

/-- A token signed with a key that is neither configured secret. -/
def forgedTokS : Token :=
  { userId := "u1", role := .user, exp := 999999999, secret := "forged-key" }

/-- A correctly signed but expired access token. -/
def expiredTokS : Token :=
  { userId := "u1", role := .user, exp := 500, secret := "access-secret" }

/-- A correctly signed, unexpired access token for user u1. -/
def goodTokS : Token :=
  { userId := "u1", role := .user, exp := 999999999, secret := "access-secret" }

/-- Sample user record holding the forged token in its stored set. -/
def aliceS : User :=
  { id := "u1", name := "Alice", email := "alice@x.com", passwordHash := bhash "pw123"
    role := .user, phone := "", addresses := [], refreshTokens := [forgedTokS], createdAt := 0 }

section Lemmas

/-- find? returns the unique element satisfying the predicate. -/
theorem find?_eq_some_unique {α : Type} {p : α → Bool} {l : List α} {a : α}
    (ha : a ∈ l) (hp : p a = true) (huniq : ∀ b ∈ l, p b = true → b = a) :
    l.find? p = some a := by
  induction l with
  | nil => cases ha
  | cons x xs ih =>
    by_cases hx : p x = true
    · rw [List.find?_cons_of_pos _ hx]
      exact congrArg some (huniq x (List.mem_cons_self x xs) hx)
    · rw [List.find?_cons_of_neg _ (by simpa using hx)]
      have hxa : x ≠ a := fun h => hx (h ▸ hp)
      refine ih ?_ ?_
      · rcases List.mem_cons.mp ha with h | h
        · exact absurd h.symm hxa
        · exact h
      · exact fun b hb hpb => huniq b (List.mem_cons_of_mem _ hb) hpb

/-- In a well-formed store, records are determined by their id. -/
theorem eq_of_id_eq {s : Store} {u v : User} (hWF : WF s) (hu : u ∈ s) (hv : v ∈ s)
    (hid : v.id = u.id) : v = u :=
  List.inj_on_of_nodup_map hWF hv hu hid

/-- Saving a record equal to the stored one is a no-op. -/
theorem updateUser_self {s : Store} {u : User} (hWF : WF s) (hu : u ∈ s) :
    updateUser s u = s := by
  unfold updateUser
  have h : ∀ v ∈ s, (if v.id == u.id then u else v) = v := by
    intro v hv
    by_cases hid : v.id = u.id
    · simp only [hid, beq_self_eq_true, if_true]
      exact (eq_of_id_eq hWF hu hv hid).symm
    · simp [hid]
  rw [List.map_congr_left h]
  simp

/-- Records whose id differs from the saved one survive a save. -/
theorem mem_updateUser_of_ne {s : Store} {u2 v : User} (hv : v ∈ s) (hne : v.id ≠ u2.id) :
    v ∈ updateUser s u2 := by
  unfold updateUser
  refine List.mem_map.mpr ⟨v, hv, ?_⟩
  simp [hne]

/-- A save that keeps id and email fixed keeps the email column of
the whole store fixed (well-formedness rules out id collisions). -/
theorem updateUser_map_email {s : Store} {u u2 : User} (hWF : WF s) (hu : u ∈ s)
    (hid : u2.id = u.id) (hemail : u2.email = u.email) :
    (updateUser s u2).map User.email = s.map User.email := by
  unfold updateUser
  rw [List.map_map]
  apply List.map_congr_left
  intro v hv
  by_cases h : v.id = u2.id
  · have hvu : v = u := eq_of_id_eq hWF hu hv (by rw [h, hid])
    simp only [Function.comp_apply, h, beq_self_eq_true, if_true]
    rw [hemail, hvu]
  · simp [Function.comp, h]

/-- Refresh fails with 401 when no stored set holds the token. -/
theorem refresh_fails_of_not_held (cfg : Config) (now : Nat) (s : Store) (rt : Token)
    (h : ∀ v ∈ s, rt ∉ v.refreshTokens) :
    refresh cfg now s { refreshToken := some rt } =
      { out := .failure 401 "Invalid refresh token", store := s } := by
  have hfind : s.find? (fun u => u.refreshTokens.contains rt) = none := by
    rw [List.find?_eq_none]
    intro v hv
    simpa using h v hv
  simp only [refresh]
  rw [hfind]

end Lemmas

/-- C1 counterexample: a refresh token that fails signature
verification against the refresh secret (here: signed with a forged
key) but sits in the stored set of a user is nevertheless accepted by
the refresh handler — no signature check precedes the store lookup. -/
theorem refresh_accepts_unverified_token_in_store :
    verifyTok cfgS.refreshSecret 1000 forgedTokS = false ∧
    forgedTokS ∈ aliceS.refreshTokens ∧
    isSuccess (refresh cfgS 1000 [aliceS] { refreshToken := some forgedTokS }).out = true := by
  refine ⟨by decide, ?_, by decide⟩
  simp [aliceS]

/-- C1 (amended): a refresh succeeds exactly when the presented token
is a member of the stored refresh-token set of some user — membership
is the only check, with no cryptographic verification of the presented
token — and an absent token is rejected with 401. -/
theorem refresh_success_iff_membership (cfg : Config) (now : Nat) (s : Store) (rt : Token) :
    (isSuccess (refresh cfg now s { refreshToken := some rt }).out = true ↔
      ∃ u ∈ s, rt ∈ u.refreshTokens) ∧
    refresh cfg now s { refreshToken := none } =
      { out := .failure 401 "Refresh token required", store := s } := by
  refine ⟨?_, rfl⟩
  cases hfind : s.find? (fun u => u.refreshTokens.contains rt) with
  | none =>
    have hout : refresh cfg now s { refreshToken := some rt } =
        { out := .failure 401 "Invalid refresh token", store := s } := by
      simp only [refresh]
      rw [hfind]
    rw [hout]
    constructor
    · intro h; simp [isSuccess] at h
    · rintro ⟨u, hu, hmem⟩
      have hnone := List.find?_eq_none.mp hfind u hu
      simp at hnone
      exact absurd hmem hnone
  | some u =>
    have hout : isSuccess (refresh cfg now s { refreshToken := some rt }).out = true := by
      simp only [refresh]
      rw [hfind]
      rfl
    refine iff_of_true hout ?_
    have hmem := List.mem_of_find?_eq_some hfind
    have hp := List.find?_some hfind
    exact ⟨u, hmem, by simpa using hp⟩

/-- C1 amended-theorem witness at a concrete store and token. -/
theorem refresh_success_iff_membership_witness :
    isSuccess (refresh cfgS 1000 [aliceS] { refreshToken := some forgedTokS }).out = true := by
  refine ((refresh_success_iff_membership cfgS 1000 [aliceS] forgedTokS).1).mpr ?_
  exact ⟨aliceS, by simp, by simp [aliceS]⟩

/-- C4: the Auth Gate denies with 401 exactly when the bearer token is
absent, malformed, signed with a key other than the access secret, or
expired; every denial carries status 401; on a valid token it grants
the subject and role embedded in the token; and on every protected
route a denial short-circuits with the 401 body leaving the store
untouched, while a grant invokes the downstream handler with the
attached identity. -/
theorem authMiddleware_spec (cfg : Config) (now : Nat) (c : Cred) :
    ((∃ msg, authMiddleware cfg now c = .denied 401 msg) ↔
      c = .missing ∨ c = .malformed ∨
        ∃ t, c = .presented t ∧ (t.secret ≠ cfg.accessSecret ∨ t.exp ≤ now)) ∧
    (∀ code msg, authMiddleware cfg now c = .denied code msg → code = 401) ∧
    (∀ t, c = .presented t → t.secret = cfg.accessSecret → now < t.exp →
      authMiddleware cfg now c = .granted t.userId t.role) ∧
    (∀ (s : Store) (b : RefreshBody) (bm : MeBody) (tid : String) code msg,
      authMiddleware cfg now c = .denied code msg →
      routeLogout cfg now c s b = { out := .failure code msg, store := s } ∧
      routeGetMe cfg now c s = { out := .failure code msg, store := s } ∧
      routePutMe cfg now c s bm = { out := .failure code msg, store := s } ∧
      routeAdminList cfg now c s = { out := .failure code msg, store := s } ∧
      routeAdminDelete cfg now c s tid = { out := .failure code msg, store := s }) ∧
    (∀ (s : Store) (b : RefreshBody) (bm : MeBody) (tid : String) uid r,
      authMiddleware cfg now c = .granted uid r →
      routeLogout cfg now c s b = logout s uid b ∧
      routeGetMe cfg now c s = getMe s uid ∧
      routePutMe cfg now c s bm = updateMe s uid bm ∧
      routeAdminList cfg now c s = adminListUsers s uid ∧
      routeAdminDelete cfg now c s tid = adminDeleteUser s uid tid) := by
  refine ⟨?_, ?_, ?_, ?_, ?_⟩
  · cases c with
    | missing => simp [authMiddleware]
    | malformed => simp [authMiddleware]
    | presented t =>
      simp only [authMiddleware]
      by_cases hv : verifyTok cfg.accessSecret now t = true
      · rw [if_pos hv]
        unfold verifyTok at hv
        simp only [Bool.and_eq_true, beq_iff_eq, decide_eq_true_eq] at hv
        constructor
        · rintro ⟨msg, h⟩; cases h
        · rintro (h | h | ⟨t2, ht2, hbad⟩)
          · cases h
          · cases h
          · cases ht2
            rcases hbad with h | h
            · exact absurd hv.1 h
            · omega
      · rw [if_neg hv]
        unfold verifyTok at hv
        simp only [Bool.and_eq_true, beq_iff_eq, decide_eq_true_eq, not_and_or, not_lt] at hv
        constructor
        · intro _
          refine Or.inr (Or.inr ⟨t, rfl, ?_⟩)
          rcases hv with h | h
          · exact Or.inl (by simpa using h)
          · exact Or.inr (by simpa using h)
        · intro _; exact ⟨"Invalid or expired token", rfl⟩
  · cases c with
    | missing => intro code msg h; cases h; rfl
    | malformed => intro code msg h; cases h; rfl
    | presented t =>
      intro code msg h
      simp only [authMiddleware] at h
      by_cases hv : verifyTok cfg.accessSecret now t = true
      · rw [if_pos hv] at h; cases h
      · rw [if_neg hv] at h; cases h; rfl
  · intro t hc hsec hexp
    cases hc
    have hv : verifyTok cfg.accessSecret now t = true := by
      unfold verifyTok
      simp [hsec, hexp]
    simp [authMiddleware, hv]
  · intro s b bm tid code msg h
    refine ⟨?_, ?_, ?_, ?_, ?_⟩ <;>
      simp [routeLogout, routeGetMe, routePutMe, routeAdminList, routeAdminDelete, withAuth, h]
  · intro s b bm tid uid r h
    refine ⟨?_, ?_, ?_, ?_, ?_⟩ <;>
      simp [routeLogout, routeGetMe, routePutMe, routeAdminList, routeAdminDelete, withAuth, h]

/-- C4 witness: a correctly signed but expired token is denied with
401, and a valid token makes GET /me run the downstream handler. -/
theorem authMiddleware_spec_witness :
    (∃ msg, authMiddleware cfgS 1000 (.presented expiredTokS) = .denied 401 msg) ∧
    routeGetMe cfgS 1000 (.presented goodTokS) [aliceS] = getMe [aliceS] "u1" := by
  constructor
  · exact ((authMiddleware_spec cfgS 1000 (.presented expiredTokS)).1).mpr
      (Or.inr (Or.inr ⟨expiredTokS, rfl, Or.inr (by decide)⟩))
  · exact (((authMiddleware_spec cfgS 1000 (.presented goodTokS)).2.2.2.2)
      [aliceS] { refreshToken := none } { name := none, phone := none, addresses := none }
      "" "u1" .user (by decide)).2.1

/-- After a save that removes every copy of `rt` from the one holder,
no record of the store holds `rt`. -/
theorem not_held_after_removal {s : Store} {u u2 : User} {rt : Token}
    (honly : ∀ v ∈ s, rt ∈ v.refreshTokens → v = u)
    (hid : u2.id = u.id) (hnot : rt ∉ u2.refreshTokens) :
    ∀ v ∈ updateUser s u2, rt ∉ v.refreshTokens := by
  intro v hv
  rcases List.mem_map.mp hv with ⟨w, hw, hweq⟩
  by_cases h : (w.id == u2.id) = true
  · rw [if_pos h] at hweq
    subst hweq
    exact hnot
  · rw [if_neg h] at hweq
    subst hweq
    intro hmem
    have hwu : w = u := honly w hw hmem
    apply h
    rw [hwu, hid]
    exact beq_self_eq_true u.id

/-- A refresh token actually issued by the service, held by the
sample user below. -/
def rtS : Token := (generateTokens cfgS "u1" Role.user 0).refreshToken

/-- Sample user for the rotation scenario: one stored session. -/
def rotUserS : User :=
  { id := "u1", name := "Alice", email := "alice@x.com", passwordHash := bhash "pw123"
    role := .user, phone := "", addresses := [], refreshTokens := [rtS], createdAt := 0 }

/-- C2: when the presented refresh token is held by user `u` (and by
nobody else), a refresh succeeds, replacing the presented token in the
stored set of `u` by exactly the one freshly issued refresh token; a
second refresh presenting the same consumed token against the updated
store — the fresh token not being a re-issue of it — fails with 401
Invalid refresh token and leaves the store unchanged. -/
theorem refresh_rotation_rejects_replay
    (cfg : Config) (now now2 : Nat) (s : Store) (rt : Token) (u : User)
    (hu : u ∈ s) (hmem : rt ∈ u.refreshTokens)
    (honly : ∀ v ∈ s, rt ∈ v.refreshTokens → v = u)
    (hfresh : (generateTokens cfg u.id u.role now).refreshToken ≠ rt) :
    refresh cfg now s { refreshToken := some rt } =
      { out := .success 200 (generateTokens cfg u.id u.role now)
        store := updateUser s
          { u with refreshTokens :=
              (u.refreshTokens.filter (fun t => t != rt)) ++
                [(generateTokens cfg u.id u.role now).refreshToken] } } ∧
    refresh cfg now2
      (updateUser s
        { u with refreshTokens :=
            (u.refreshTokens.filter (fun t => t != rt)) ++
              [(generateTokens cfg u.id u.role now).refreshToken] })
      { refreshToken := some rt } =
      { out := .failure 401 "Invalid refresh token"
        store := updateUser s
          { u with refreshTokens :=
              (u.refreshTokens.filter (fun t => t != rt)) ++
                [(generateTokens cfg u.id u.role now).refreshToken] } } := by
  have hfind : s.find? (fun v => v.refreshTokens.contains rt) = some u := by
    apply find?_eq_some_unique hu
    · simpa using hmem
    · intro v hv hpv
      exact honly v hv (by simpa using hpv)
  constructor
  · simp only [refresh]
    rw [hfind]
  · apply refresh_fails_of_not_held
    refine not_held_after_removal honly ?_ ?_
    · rfl
    · intro h
      rcases List.mem_append.mp h with h1 | h2
      · rcases List.mem_filter.mp h1 with ⟨_, hne⟩
        simp at hne
      · rw [List.mem_singleton] at h2
        exact hfresh h2.symm

/-- C2 witness: the concrete rotation scenario at time 1000, replayed
at time 2000. -/
theorem refresh_rotation_rejects_replay_witness :
    refresh cfgS 1000 [rotUserS] { refreshToken := some rtS } =
      { out := .success 200 (generateTokens cfgS "u1" Role.user 1000)
        store := [{ rotUserS with
          refreshTokens := [(generateTokens cfgS "u1" Role.user 1000).refreshToken] }] } ∧
    refresh cfgS 2000
      [{ rotUserS with
          refreshTokens := [(generateTokens cfgS "u1" Role.user 1000).refreshToken] }]
      { refreshToken := some rtS } =
      { out := .failure 401 "Invalid refresh token"
        store := [{ rotUserS with
          refreshTokens := [(generateTokens cfgS "u1" Role.user 1000).refreshToken] }] } := by
  have h := refresh_rotation_rejects_replay cfgS 1000 2000 [rotUserS] rtS rotUserS
    (by simp) (by simp [rotUserS]) (by decide) (by decide)
  simpa [updateUser, rotUserS, rtS] using h

/-- C7: for an authenticated logout presenting a refresh token, the
handler succeeds with 200 and saves the set of the caller with every
copy of that exact token filtered out; when the token is not in the
set the store is unchanged (idempotent no-op, still 200); and if the
caller was the only holder, presenting that token to refresh
afterwards fails with 401 Invalid refresh token. -/
theorem logout_spec (cfg : Config) (now : Nat) (s : Store) (uid : String) (rt : Token) (u : User)
    (hWF : WF s) (hfind : s.find? (fun v => v.id == uid) = some u) :
    logout s uid { refreshToken := some rt } =
      { out := .success 200 "Logged out"
        store := updateUser s
          { u with refreshTokens := u.refreshTokens.filter (fun t => t != rt) } } ∧
    (rt ∉ u.refreshTokens → (logout s uid { refreshToken := some rt }).store = s) ∧
    ((∀ v ∈ s, rt ∈ v.refreshTokens → v = u) →
      refresh cfg now (logout s uid { refreshToken := some rt }).store
          { refreshToken := some rt } =
        { out := .failure 401 "Invalid refresh token"
          store := (logout s uid { refreshToken := some rt }).store }) := by
  have hu : u ∈ s := List.mem_of_find?_eq_some hfind
  have hlog : logout s uid { refreshToken := some rt } =
      { out := .success 200 "Logged out"
        store := updateUser s
          { u with refreshTokens := u.refreshTokens.filter (fun t => t != rt) } } := by
    simp only [logout]
    rw [hfind]
  refine ⟨hlog, ?_, ?_⟩
  · intro hnot
    rw [hlog]
    have hfilt : u.refreshTokens.filter (fun t => t != rt) = u.refreshTokens := by
      apply List.filter_eq_self.mpr
      intro a ha
      have hne : a ≠ rt := fun h => hnot (h ▸ ha)
      simpa using hne
    have hrec : ({ u with refreshTokens := u.refreshTokens.filter (fun t => t != rt) } : User)
        = u := by
      rw [hfilt]
    rw [hrec, updateUser_self hWF hu]
  · intro honly
    rw [hlog]
    apply refresh_fails_of_not_held
    refine not_held_after_removal honly ?_ ?_
    · rfl
    · intro h
      rcases List.mem_filter.mp h with ⟨_, hne⟩
      simp at hne

/-- C7 witness: the sample user logs out its only session; the token
then fails to refresh. -/
theorem logout_spec_witness :
    logout [rotUserS] "u1" { refreshToken := some rtS } =
      { out := .success 200 "Logged out"
        store := [{ rotUserS with refreshTokens := [] }] } ∧
    refresh cfgS 1000 [{ rotUserS with refreshTokens := [] }] { refreshToken := some rtS } =
      { out := .failure 401 "Invalid refresh token"
        store := [{ rotUserS with refreshTokens := [] }] } := by
  have h := logout_spec cfgS 1000 [rotUserS] "u1" rtS rotUserS (by simp [WF])
    (by simp [rotUserS])
  constructor
  · have h1 := h.1
    simpa [updateUser, rotUserS] using h1
  · have h3 := h.2.2 (by decide)
    have hst : (logout [rotUserS] "u1" { refreshToken := some rtS }).store =
        [{ rotUserS with refreshTokens := [] }] := by decide
    rw [hst] at h3
    exact h3

/-- C3: with a valid access token, each admin route succeeds exactly
when the freshly loaded store record of the caller has role admin;
when that record is absent or has another role the route fails with
403 and the store is unchanged; and the responses are independent of
the role claim embedded in the presented token. -/
theorem admin_routes_require_stored_admin
    (cfg : Config) (now : Nat) (t : Token) (s : Store) (targetId : String)
    (hsec : t.secret = cfg.accessSecret) (hexp : now < t.exp) :
    isSuccess (routeAdminList cfg now (.presented t) s).out = storedAdmin s t.userId ∧
    isSuccess (routeAdminDelete cfg now (.presented t) s targetId).out =
      storedAdmin s t.userId ∧
    (storedAdmin s t.userId = false →
      routeAdminList cfg now (.presented t) s =
        { out := .failure 403 "Admin permission required", store := s } ∧
      routeAdminDelete cfg now (.presented t) s targetId =
        { out := .failure 403 "Admin permission required", store := s }) ∧
    (∀ r : Role,
      routeAdminList cfg now (.presented { t with role := r }) s =
        routeAdminList cfg now (.presented t) s ∧
      routeAdminDelete cfg now (.presented { t with role := r }) s targetId =
        routeAdminDelete cfg now (.presented t) s targetId) := by
  have hv : ∀ r : Role, verifyTok cfg.accessSecret now { t with role := r } = true := by
    intro r
    unfold verifyTok
    simp [hsec, hexp]
  have hgrant : ∀ r : Role,
      authMiddleware cfg now (.presented { t with role := r }) = .granted t.userId r := by
    intro r
    simp [authMiddleware, hv r]
  have hteta : ({ t with role := t.role } : Token) = t := rfl
  have hlist : ∀ r : Role, routeAdminList cfg now (.presented { t with role := r }) s =
      adminListUsers s t.userId := by
    intro r
    simp [routeAdminList, withAuth, hgrant r]
  have hdel : ∀ r : Role,
      routeAdminDelete cfg now (.presented { t with role := r }) s targetId =
        adminDeleteUser s t.userId targetId := by
    intro r
    simp [routeAdminDelete, withAuth, hgrant r]
  have hlist0 : routeAdminList cfg now (.presented t) s = adminListUsers s t.userId := by
    rw [← hteta]
    exact hlist t.role
  have hdel0 : routeAdminDelete cfg now (.presented t) s targetId =
      adminDeleteUser s t.userId targetId := by
    rw [← hteta]
    exact hdel t.role
  have hcharL : isSuccess (adminListUsers s t.userId).out = storedAdmin s t.userId ∧
      (storedAdmin s t.userId = false →
        adminListUsers s t.userId =
          { out := .failure 403 "Admin permission required", store := s }) := by
    cases hf : s.find? (fun v => v.id == t.userId) with
    | none => simp [adminListUsers, storedAdmin, hf, isSuccess]
    | some a =>
      by_cases hr : (a.role == Role.admin) = true
      · simp [adminListUsers, storedAdmin, hf, hr, isSuccess]
      · simp [adminListUsers, storedAdmin, hf, hr, isSuccess]
  have hcharD : isSuccess (adminDeleteUser s t.userId targetId).out = storedAdmin s t.userId ∧
      (storedAdmin s t.userId = false →
        adminDeleteUser s t.userId targetId =
          { out := .failure 403 "Admin permission required", store := s }) := by
    cases hf : s.find? (fun v => v.id == t.userId) with
    | none => simp [adminDeleteUser, storedAdmin, hf, isSuccess]
    | some a =>
      by_cases hr : (a.role == Role.admin) = true
      · simp [adminDeleteUser, storedAdmin, hf, hr, isSuccess]
      · simp [adminDeleteUser, storedAdmin, hf, hr, isSuccess]
  refine ⟨?_, ?_, ?_, ?_⟩
  · rw [hlist0]
    exact hcharL.1
  · rw [hdel0]
    exact hcharD.1
  · intro hna
    rw [hlist0, hdel0]
    exact ⟨hcharL.2 hna, hcharD.2 hna⟩
  · intro r
    rw [hlist0, hdel0, hlist r, hdel r]
    exact ⟨rfl, rfl⟩

/-- C3 witness: a valid token whose embedded role claim is admin does
not open the admin listing when the stored record says user. -/
theorem admin_routes_require_stored_admin_witness :
    routeAdminList cfgS 1000 (.presented { goodTokS with role := Role.admin }) [aliceS] =
      { out := .failure 403 "Admin permission required", store := [aliceS] } := by
  have h := admin_routes_require_stored_admin cfgS 1000
    { goodTokS with role := Role.admin } [aliceS] "" (by decide) (by decide)
  exact (h.2.2.1 (by decide)).1

/-- Agreement of two user records on every field except passwordHash
and refreshTokens. -/
def agreesPublic (u v : User) : Prop :=
  u.id = v.id ∧ u.name = v.name ∧ u.email = v.email ∧ u.role = v.role ∧
    u.phone = v.phone ∧ u.addresses = v.addresses ∧ u.createdAt = v.createdAt

/-- The admin projection is invariant under `agreesPublic`. -/
theorem adminView_congr {u v : User} (h : agreesPublic u v) : adminView u = adminView v := by
  obtain ⟨h1, h2, h3, h4, h5, h6, h7⟩ := h
  simp [adminView, h1, h2, h3, h4, h5, h6, h7]

/-- The projected listing is invariant under pointwise `agreesPublic`. -/
theorem map_adminView_congr {s1 s2 : Store} (h : List.Forall₂ agreesPublic s1 s2) :
    s1.map adminView = s2.map adminView := by
  induction h with
  | nil => rfl
  | cons hab _ ih => simp [adminView_congr hab, ih]

/-- Lookups by id in two pointwise-agreeing stores produce agreeing
results. -/
theorem find?_id_rel {s1 s2 : Store} (h : List.Forall₂ agreesPublic s1 s2) (uid : String) :
    (s1.find? (fun v => v.id == uid) = none ∧ s2.find? (fun v => v.id == uid) = none) ∨
    (∃ a b, s1.find? (fun v => v.id == uid) = some a ∧
      s2.find? (fun v => v.id == uid) = some b ∧ agreesPublic a b) := by
  induction h with
  | nil => exact Or.inl ⟨rfl, rfl⟩
  | @cons a b l1 l2 hab htail ih =>
    by_cases hid : (a.id == uid) = true
    · have hidb : (b.id == uid) = true := by
        rw [← hab.1]
        exact hid
      refine Or.inr ⟨a, b, ?_, ?_, hab⟩
      · simp [List.find?_cons, hid]
      · simp [List.find?_cons, hidb]
    · have hid2 : (a.id == uid) = false := by simpa using hid
      have hidb : (b.id == uid) = false := by
        rw [← hab.1]
        exact hid2
      rcases ih with ⟨h1, h2⟩ | ⟨x, y, h1, h2, hxy⟩
      · refine Or.inl ⟨?_, ?_⟩
        · simp [List.find?_cons, hid2, h1]
        · simp [List.find?_cons, hidb, h2]
      · refine Or.inr ⟨x, y, ?_, ?_, hxy⟩
        · simp [List.find?_cons, hid2, h1]
        · simp [List.find?_cons, hidb, h2]

/-- C5: the response of the admin listing is unchanged under any
change of any password hash or refresh-token set in the store — the
listing exposes neither field. -/
theorem adminListUsers_no_secret_dependence (s1 s2 : Store) (uid : String)
    (h : List.Forall₂ agreesPublic s1 s2) :
    (adminListUsers s1 uid).out = (adminListUsers s2 uid).out := by
  rcases find?_id_rel h uid with ⟨h1, h2⟩ | ⟨a, b, h1, h2, hab⟩
  · simp [adminListUsers, h1, h2]
  · have hrole : a.role = b.role := hab.2.2.2.1
    by_cases hr : (a.role == Role.admin) = true
    · have hrb : (b.role == Role.admin) = true := by rw [← hrole]; exact hr
      simp only [adminListUsers, h1, h2, hr, hrb, if_true]
      exact congrArg (Outcome.success 200) (map_adminView_congr h)
    · have hrb : ¬ (b.role == Role.admin) = true := by rw [← hrole]; exact hr
      simp [adminListUsers, h1, h2, hr, hrb]

/-- C5 witness: rewriting the password hash and wiping the token set
of the only user leaves the admin listing byte-identical. -/
theorem adminListUsers_no_secret_dependence_witness :
    (adminListUsers [aliceS] "u1").out =
      (adminListUsers [{ aliceS with passwordHash := "other", refreshTokens := [] }] "u1").out := by
  apply adminListUsers_no_secret_dependence
  exact List.Forall₂.cons (by constructor <;> simp [aliceS]) List.Forall₂.nil

/-- The second save of register: saving the updated fresh document in
a store where its id is new rewrites only the appended record. -/
theorem updateUser_append_fresh {s : Store} {user user2 : User}
    (hid : user2.id = user.id) (hfresh : ∀ v ∈ s, v.id ≠ user.id) :
    updateUser (s ++ [user]) user2 = s ++ [user2] := by
  unfold updateUser
  rw [List.map_append]
  congr 1
  · have h : ∀ v ∈ s, (if v.id == user2.id then user2 else v) = v := by
      intro v hv
      have hne : v.id ≠ user2.id := by
        rw [hid]
        exact hfresh v hv
      simp [hne]
    rw [List.map_congr_left h]
    simp
  · have hcond : (user.id == user2.id) = true := by
      rw [hid]
      exact beq_self_eq_true user.id
    simp only [List.map_cons, List.map_nil, hcond, if_true]

/-- In a store with unique emails, exactly one record carries the
email of a member. -/
theorem count_email_eq_one {s : Store} {u : User} (hU : emailUnique s) (hu : u ∈ s) :
    (s.filter (fun v => v.email == u.email)).length = 1 := by
  induction s with
  | nil => cases hu
  | cons a t ih =>
    rw [emailUnique, List.map_cons, List.nodup_cons] at hU
    rcases List.mem_cons.mp hu with rfl | hut
    · rw [List.filter_cons]
      simp only [beq_self_eq_true, if_true]
      have hnil : t.filter (fun v => v.email == u.email) = [] := by
        rw [List.filter_eq_nil_iff]
        intro b hb hbe
        apply hU.1
        have : b.email = u.email := by simpa using hbe
        rw [← this]
        exact List.mem_map_of_mem _ hb
      simp [hnil]
    · rw [List.filter_cons]
      have hne : (a.email == u.email) = false := by
        have hmem : u.email ∈ t.map User.email := List.mem_map_of_mem _ hut
        have : a.email ≠ u.email := by
          intro h
          apply hU.1
          rw [h]
          exact hmem
        simpa using this
      simp only [hne, if_false, Bool.false_eq_true]
      exact ih hU.2 hut

/-- Characterization of PUT /me on a found record: the response is
200 with the updated profile, the store save touches only that
record, and the updated record keeps id, email, role, passwordHash,
refreshTokens and createdAt, while name and phone follow the truthy
body fields and addresses follows any present array. -/
theorem updateMe_store_char (s : Store) (uid : String) (b : MeBody) {u : User}
    (hfind : s.find? (fun v => v.id == uid) = some u) :
    ∃ u3 : User,
      updateMe s uid b = { out := .success 200 (profileOf u3), store := updateUser s u3 } ∧
      u3.id = u.id ∧ u3.email = u.email ∧ u3.role = u.role ∧
      u3.passwordHash = u.passwordHash ∧ u3.refreshTokens = u.refreshTokens ∧
      u3.createdAt = u.createdAt ∧
      u3.name = (if truthyStr b.name then b.name.getD "" else u.name) ∧
      u3.phone = (if truthyStr b.phone then b.phone.getD "" else u.phone) ∧
      u3.addresses = (match b.addresses with | some l => l | none => u.addresses) := by
  simp only [updateMe]
  rw [hfind]
  refine ⟨_, rfl, ?_, ?_, ?_, ?_, ?_, ?_, ?_, ?_, ?_⟩ <;>
    cases b.addresses <;>
    by_cases h1 : truthyStr b.name = true <;>
    by_cases h2 : truthyStr b.phone = true <;>
    simp [h1, h2]

/-- C6: a register with an email already stored fails with 400 Email
already used and leaves the store unchanged, keeping exactly one
record with that email; and the email-uniqueness invariant is
preserved by every operation: register (with a fresh document id),
login, refresh, logout, profile update, admin delete, and the
read-only handlers. -/
theorem email_conflict_and_uniqueness (cfg : Config) (now : Nat) (s : Store) :
    (∀ (newId nm e p : String) (u : User),
      u ∈ s → u.email = normEmail e → nm ≠ "" → e ≠ "" → p ≠ "" →
      register cfg newId now s { name := some nm, email := some e, password := some p } =
        { out := .failure 400 "Email already used", store := s } ∧
      (emailUnique s →
        (((register cfg newId now s
              { name := some nm, email := some e, password := some p }).store).filter
            (fun v => v.email == normEmail e)).length = 1)) ∧
    (∀ (newId : String) (b : RegisterBody),
      emailUnique s → (∀ v ∈ s, v.id ≠ newId) →
      emailUnique (register cfg newId now s b).store) ∧
    (∀ b : LoginBody, WF s →
      ((login cfg now s b).store).map User.email = s.map User.email) ∧
    (∀ b : RefreshBody, WF s →
      ((refresh cfg now s b).store).map User.email = s.map User.email) ∧
    (∀ (uid : String) (b : RefreshBody), WF s →
      ((logout s uid b).store).map User.email = s.map User.email) ∧
    (∀ (uid : String) (b : MeBody), WF s →
      ((updateMe s uid b).store).map User.email = s.map User.email) ∧
    (∀ uid tid : String, emailUnique s → emailUnique (adminDeleteUser s uid tid).store) ∧
    (∀ uid : String, (getMe s uid).store = s ∧ (adminListUsers s uid).store = s) := by
  refine ⟨?_, ?_, ?_, ?_, ?_, ?_, ?_, ?_⟩
  · intro newId nm e p u hu hue hnm he hp
    have hg : (truthyStr (some nm) && truthyStr (some e) && truthyStr (some p)) = true := by
      simp [truthyStr, hnm, he, hp]
    have hreg : register cfg newId now s
        { name := some nm, email := some e, password := some p } =
        { out := .failure 400 "Email already used", store := s } := by
      simp only [register]
      rw [if_pos hg]
      simp only [Option.getD_some]
      cases hfind : s.find? (fun v => v.email == normEmail e) with
      | none =>
        exfalso
        have := List.find?_eq_none.mp hfind u hu
        simp [hue] at this
      | some w => rfl
    refine ⟨hreg, ?_⟩
    intro hU
    rw [hreg]
    have hflt : (fun v : User => v.email == normEmail e) = (fun v : User => v.email == u.email) := by
      funext v
      rw [hue]
    rw [hflt]
    exact count_email_eq_one hU hu
  · intro newId b hU hfresh
    by_cases hg : (truthyStr b.name && truthyStr b.email && truthyStr b.password) = true
    · simp only [register]
      rw [if_pos hg]
      cases hfind : s.find? (fun v => v.email == normEmail (b.email.getD "")) with
      | some w => exact hU
      | none =>
        have hstep : updateUser
            (s ++ [{ id := newId, name := b.name.getD "",
                     email := normEmail (b.email.getD ""),
                     passwordHash := bhash (b.password.getD ""), role := .user
                     addresses := [], phone := "", refreshTokens := [], createdAt := now }])
            { id := newId, name := b.name.getD "", email := normEmail (b.email.getD ""),
              passwordHash := bhash (b.password.getD ""), role := .user
              addresses := [], phone := "",
              refreshTokens := [(generateTokens cfg newId Role.user now).refreshToken]
              createdAt := now } =
            s ++ [{ id := newId, name := b.name.getD "",
                    email := normEmail (b.email.getD ""),
                    passwordHash := bhash (b.password.getD ""), role := .user
                    addresses := [], phone := "",
                    refreshTokens := [(generateTokens cfg newId Role.user now).refreshToken]
                    createdAt := now }] :=
          updateUser_append_fresh rfl hfresh
        simp only [List.nil_append]
        rw [hstep]
        have hnotin : normEmail (b.email.getD "") ∉ s.map User.email := by
          intro hmem
          obtain ⟨v, hv, hveq⟩ := List.mem_map.mp hmem
          have hne := List.find?_eq_none.mp hfind v hv
          simp at hne
          exact hne hveq
        rw [emailUnique, List.map_append]
        refine List.Nodup.append hU (List.nodup_singleton _) ?_
        intro a ha hb
        rw [List.map_singleton, List.mem_singleton] at hb
        subst hb
        exact hnotin ha
    · simp only [register]
      rw [if_neg hg]
      exact hU
  · intro b hWF
    by_cases hg : (truthyStr b.email && truthyStr b.password) = true
    · simp only [login]
      rw [if_pos hg]
      cases hfind : s.find? (fun v => v.email == normEmail (b.email.getD "")) with
      | none => rfl
      | some u =>
        dsimp only
        by_cases hc : bcompare (b.password.getD "") u.passwordHash = true
        · rw [if_pos hc]
          exact updateUser_map_email hWF (List.mem_of_find?_eq_some hfind) rfl rfl
        · rw [if_neg hc]
    · simp only [login]
      rw [if_neg hg]
  · intro b hWF
    cases hb : b.refreshToken with
    | none =>
      simp only [refresh]
      rw [hb]
    | some rt =>
      simp only [refresh]
      rw [hb]
      dsimp only
      cases hfind : s.find? (fun v => v.refreshTokens.contains rt) with
      | none => rfl
      | some u => exact updateUser_map_email hWF (List.mem_of_find?_eq_some hfind) rfl rfl
  · intro uid b hWF
    cases hb : b.refreshToken with
    | none =>
      simp only [logout]
      rw [hb]
      cases hfind : s.find? (fun v => v.id == uid) <;> rfl
    | some rt =>
      simp only [logout]
      rw [hb]
      cases hfind : s.find? (fun v => v.id == uid) with
      | none => rfl
      | some u => exact updateUser_map_email hWF (List.mem_of_find?_eq_some hfind) rfl rfl
  · intro uid b hWF
    cases hfind : s.find? (fun v => v.id == uid) with
    | none =>
      simp only [updateMe]
      rw [hfind]
    | some u =>
      obtain ⟨u3, heq, hid, hemail, _⟩ := updateMe_store_char s uid b hfind
      rw [heq]
      exact updateUser_map_email hWF (List.mem_of_find?_eq_some hfind) hid hemail
  · intro uid tid hU
    cases hfind : s.find? (fun v => v.id == uid) with
    | none =>
      simp only [adminDeleteUser]
      rw [hfind]
      exact hU
    | some a =>
      by_cases hr : (a.role == Role.admin) = true
      · simp only [adminDeleteUser]
        rw [hfind]
        dsimp only
        rw [if_pos hr]
        have hsub : List.Sublist ((s.filter (fun v => v.id != tid)).map User.email)
            (s.map User.email) :=
          List.Sublist.map _ (List.filter_sublist s)
        exact List.Nodup.sublist hsub hU
      · simp only [adminDeleteUser]
        rw [hfind]
        dsimp only
        rw [if_neg hr]
        exact hU
  · intro uid
    constructor
    · cases hfind : s.find? (fun v => v.id == uid) <;> simp [getMe, hfind]
    · cases hfind : s.find? (fun v => v.id == uid) with
      | none => simp [adminListUsers, hfind]
      | some a =>
        by_cases hr : (a.role == Role.admin) = true <;> simp [adminListUsers, hfind, hr]

/-- C6 witness: registering Bob with the email of the already-stored
Alice fails with the conflict error and leaves the store as it was. -/
theorem email_conflict_and_uniqueness_witness :
    register cfgS "u2" 0 [rotUserS]
        { name := some "Bob", email := some "alice@x.com", password := some "x" } =
      { out := .failure 400 "Email already used", store := [rotUserS] } := by
  exact ((email_conflict_and_uniqueness cfgS 0 [rotUserS]).1 "u2" "Bob" "alice@x.com" "x"
    rotUserS (by simp) (by decide) (by decide) (by decide) (by decide)).1

/-- C8: issuing a token pair yields an access token carrying the
subject and role, signed with the access secret and expiring one hour
from now, and a refresh token carrying the same claims, signed with
the refresh secret and expiring seven days from now; under a
configuration with distinct secrets the two tokens are signed with
distinct keys. -/
theorem generateTokens_spec (cfg : Config) (uid : String) (r : Role) (now : Nat)
    (hsec : cfg.accessSecret ≠ cfg.refreshSecret) :
    generateTokens cfg uid r now =
      { accessToken := { userId := uid, role := r, exp := now + 3600, secret := cfg.accessSecret }
        refreshToken :=
          { userId := uid, role := r, exp := now + 604800, secret := cfg.refreshSecret } } ∧
    (generateTokens cfg uid r now).accessToken.secret ≠
      (generateTokens cfg uid r now).refreshToken.secret :=
  ⟨rfl, hsec⟩

/-- C8 witness at the sample configuration. -/
theorem generateTokens_spec_witness :
    generateTokens cfgS "u1" .user 0 =
      { accessToken := { userId := "u1", role := .user, exp := 3600, secret := "access-secret" }
        refreshToken :=
          { userId := "u1", role := .user, exp := 604800, secret := "refresh-secret" } } ∧
    (generateTokens cfgS "u1" .user 0).accessToken.secret ≠
      (generateTokens cfgS "u1" .user 0).refreshToken.secret :=
  generateTokens_spec cfgS "u1" .user 0 (by decide)

/-- C9: a successful login appends exactly one freshly issued refresh
token to the stored set of the matched user, leaving every prior
entry in place and every other record untouched; a successful
register creates the new user with exactly the one issued token as
its whole set and keeps every pre-existing record identically in the
store. -/
theorem issue_appends_single_token (cfg : Config) (now : Nat) (s : Store) :
    (∀ (e p : String) (u : User),
      e ≠ "" → p ≠ "" →
      s.find? (fun v => v.email == normEmail e) = some u →
      bcompare p u.passwordHash = true →
      login cfg now s { email := some e, password := some p } =
        { out := .success 200
            { accessToken := (generateTokens cfg u.id u.role now).accessToken
              refreshToken := (generateTokens cfg u.id u.role now).refreshToken
              user := summarize u }
          store := updateUser s { u with refreshTokens :=
            u.refreshTokens ++ [(generateTokens cfg u.id u.role now).refreshToken] } } ∧
      (∀ v ∈ s, v.id ≠ u.id →
        v ∈ (login cfg now s { email := some e, password := some p }).store)) ∧
    (∀ (newId nm e p : String),
      nm ≠ "" → e ≠ "" → p ≠ "" →
      s.find? (fun v => v.email == normEmail e) = none →
      (∀ v ∈ s, v.id ≠ newId) →
      register cfg newId now s { name := some nm, email := some e, password := some p } =
        { out := .success 201
            { accessToken := (generateTokens cfg newId Role.user now).accessToken
              refreshToken := (generateTokens cfg newId Role.user now).refreshToken
              user := summarize
                { id := newId, name := nm, email := normEmail e, passwordHash := bhash p
                  role := .user, addresses := [], phone := ""
                  refreshTokens := [(generateTokens cfg newId Role.user now).refreshToken]
                  createdAt := now } }
          store := s ++
            [{ id := newId, name := nm, email := normEmail e, passwordHash := bhash p
               role := .user, addresses := [], phone := ""
               refreshTokens := [(generateTokens cfg newId Role.user now).refreshToken]
               createdAt := now }] }) := by
  constructor
  · intro e p u he hp hfind hcmp
    have hg : (truthyStr (some e) && truthyStr (some p)) = true := by
      simp [truthyStr, he, hp]
    have heq : login cfg now s { email := some e, password := some p } =
        { out := .success 200
            { accessToken := (generateTokens cfg u.id u.role now).accessToken
              refreshToken := (generateTokens cfg u.id u.role now).refreshToken
              user := summarize u }
          store := updateUser s { u with refreshTokens :=
            u.refreshTokens ++ [(generateTokens cfg u.id u.role now).refreshToken] } } := by
      simp only [login]
      rw [if_pos hg]
      simp only [Option.getD_some]
      rw [hfind]
      dsimp only
      rw [if_pos hcmp]
      rfl
    refine ⟨heq, ?_⟩
    intro v hv hne
    rw [heq]
    exact mem_updateUser_of_ne hv hne
  · intro newId nm e p hnm he hp hfind hfresh
    have hg : (truthyStr (some nm) && truthyStr (some e) && truthyStr (some p)) = true := by
      simp [truthyStr, hnm, he, hp]
    simp only [register]
    rw [if_pos hg]
    simp only [Option.getD_some]
    rw [hfind]
    dsimp only
    simp only [List.nil_append]
    have hstep : updateUser
        (s ++ [{ id := newId, name := nm, email := normEmail e, passwordHash := bhash p
                 role := Role.user, phone := "", addresses := [], refreshTokens := []
                 createdAt := now }])
        { id := newId, name := nm, email := normEmail e, passwordHash := bhash p
          role := Role.user, phone := "", addresses := []
          refreshTokens := [(generateTokens cfg newId Role.user now).refreshToken]
          createdAt := now } =
        s ++ [{ id := newId, name := nm, email := normEmail e, passwordHash := bhash p
                role := Role.user, phone := "", addresses := []
                refreshTokens := [(generateTokens cfg newId Role.user now).refreshToken]
                createdAt := now }] :=
      updateUser_append_fresh rfl hfresh
    rw [hstep]

/-- C9 witness: the sample user logs in again and ends with both the
old and the one new session token. -/
theorem issue_appends_single_token_witness :
    login cfgS 1000 [rotUserS] { email := some "alice@x.com", password := some "pw123" } =
      { out := .success 200
          { accessToken := (generateTokens cfgS rotUserS.id rotUserS.role 1000).accessToken
            refreshToken := (generateTokens cfgS rotUserS.id rotUserS.role 1000).refreshToken
            user := summarize rotUserS }
        store := updateUser [rotUserS] { rotUserS with refreshTokens :=
          rotUserS.refreshTokens ++
            [(generateTokens cfgS rotUserS.id rotUserS.role 1000).refreshToken] } } := by
  exact (((issue_appends_single_token cfgS 1000 [rotUserS]).1 "alice@x.com" "pw123" rotUserS
    (by decide) (by decide) (by decide) (by decide))).1

/-- Sample user for the profile-update counterexample: one stored
postal address and a nonempty phone. -/
def carolS : User :=
  { id := "u3", name := "Carol", email := "carol@x.com", passwordHash := bhash "pw"
    role := .user, phone := "555", addresses :=
      [{ street := "1 Main St", city := "Springfield", state := "IL", zip := "62701"
         country := "US" }]
    refreshTokens := [], createdAt := 0 }

/-- C10 counterexample: providing the empty array for addresses — an
empty value — is not ignored: it clears the stored address list,
because an array is truthy in the handler guard even when empty. -/
theorem updateMe_empty_addresses_clears :
    carolS.addresses ≠ [] ∧
    (updateMe [carolS] "u3"
        { name := none, phone := none, addresses := some [] }).store =
      [{ carolS with addresses := [] }] ∧
    ({ carolS with addresses := [] } : User) ≠ carolS := by
  refine ⟨by decide, by decide, by decide⟩

/-- C10 (amended): PUT /me can change only name, phone and addresses
of the record of the subject — id, email, role, passwordHash,
refreshTokens and createdAt are unchanged and every other record is
untouched; a provided name or phone that is falsy (absent or the
empty string) is ignored, an absent or null addresses field is
ignored, but any provided addresses array — including the empty
array — replaces the stored list. -/
theorem updateMe_frame (s : Store) (uid : String) (b : MeBody) (u : User)
    (hfind : s.find? (fun v => v.id == uid) = some u) :
    ∃ u3 : User,
      updateMe s uid b = { out := .success 200 (profileOf u3), store := updateUser s u3 } ∧
      u3.id = u.id ∧ u3.email = u.email ∧ u3.role = u.role ∧
      u3.passwordHash = u.passwordHash ∧ u3.refreshTokens = u.refreshTokens ∧
      u3.createdAt = u.createdAt ∧
      (truthyStr b.name = false → u3.name = u.name) ∧
      (truthyStr b.phone = false → u3.phone = u.phone) ∧
      (b.addresses = none → u3.addresses = u.addresses) ∧
      (∀ l, b.addresses = some l → u3.addresses = l) ∧
      (∀ v ∈ s, v.id ≠ u.id → v ∈ (updateMe s uid b).store) := by
  obtain ⟨u3, heq, hid, hemail, hrole, hpass, htok, hcreated, hname, hphone, haddr⟩ :=
    updateMe_store_char s uid b hfind
  refine ⟨u3, heq, hid, hemail, hrole, hpass, htok, hcreated, ?_, ?_, ?_, ?_, ?_⟩
  · intro h
    rw [hname, h]
    simp
  · intro h
    rw [hphone, h]
    simp
  · intro h
    rw [haddr, h]
  · intro l h
    rw [haddr, h]
  · intro v hv hne
    rw [heq]
    exact mem_updateUser_of_ne hv (by rw [hid]; exact hne)

/-- C10 witness: an update presenting an empty name and nothing else
leaves the record of the sample user exactly as stored. -/
theorem updateMe_frame_witness :
    (updateMe [carolS] "u3" { name := some "", phone := none, addresses := none }).store =
      [carolS] := by
  obtain ⟨u3, heq, hid, hemail, hrole, hpass, htok, hcreated, hname, hphone, haddrn, haddrs,
      hframe⟩ :=
    updateMe_frame [carolS] "u3" { name := some "", phone := none, addresses := none } carolS
      (by decide)
  have h1 := hname (by decide)
  have h2 := hphone (by decide)
  have h3 := haddrn rfl
  have hu3 : u3 = carolS := by
    cases u3
    simp_all [carolS]
  rw [heq, hu3]
  decide

end AuthService
